import Mathlib

/-!
Shallow embedding of the flight-map-server telemetry sender
(src/senderv6.py and src/senderv7.py) and proofs about it.

Modelling conventions:
* Python machine integers are `Int`; `struct.pack` range failures are `Option`.
* Python floats are modelled as exact rationals (`Rat`) where the code only
  adds, multiplies, divides and compares, and as real numbers (`Real`) where
  the code calls trigonometric functions.
* `int(x)` (truncation toward zero) is `pyint` / `pyintR`; the `%` operator of
  Python on non-negative divisors is `pymod` / `pymodR`.
* Byte strings are `List Nat` with each entry one byte value.
-/

set_option maxRecDepth 40000

namespace FlightMap

/-! ## struct.pack model

`DATA_FULL_FORMAT` of senderv6.py is the byte layout
`'>HH' + ('i' * 42) + '5s'`; senderv7.py declares
`'>HH' + ('i' * 20) + 'I' + ('i' * 21)`.  A format is a list of items, an
argument list is packed item by item; any out-of-range integer or
item/argument kind mismatch is a `struct.error`, modelled as `none`. -/

/-- Format items of the struct module used by the senders:
H ~ big-endian unsigned 16-bit, I32 ~ big-endian signed 32-bit,
U32 ~ big-endian unsigned 32-bit, S n ~ an n-byte string field. -/
inductive FmtItem : Type
  | H : FmtItem
  | I32 : FmtItem
  | U32 : FmtItem
  | S : Nat → FmtItem

/-- Byte width of one format item, as struct.calcsize counts it
(no alignment padding arises in these formats). -/
def itemSize : FmtItem → Nat
  | .H => 2
  | .I32 => 4
  | .U32 => 4
  | .S n => n

/-- struct.calcsize of a whole format. -/
def calcsize (fmt : List FmtItem) : Nat := (fmt.map itemSize).sum

/-- One argument passed to struct.pack: a Python int or a byte string. -/
inductive PackArg : Type
  | int : ℤ → PackArg
  | str : List Nat → PackArg

/-- Big-endian bytes of an unsigned 16-bit value. -/
def bytesBE2 (u : Nat) : List Nat := [u / 256 % 256, u % 256]

/-- Big-endian bytes of an unsigned 32-bit value. -/
def bytesBE4 (u : Nat) : List Nat :=
  [u / 16777216 % 256, u / 65536 % 256, u / 256 % 256, u % 256]

/-- Pack one argument against one format item, with the range checks
struct.pack performs; 's' fields are truncated or zero-padded to width. -/
def packItem : FmtItem → PackArg → Option (List Nat)
  | .H, .int n => if 0 ≤ n ∧ n < 65536 then some (bytesBE2 n.toNat) else none
  | .I32, .int n =>
      if -2147483648 ≤ n ∧ n < 2147483648 then
        some (bytesBE4 ((n % 4294967296).toNat))
      else none
  | .U32, .int n => if 0 ≤ n ∧ n < 4294967296 then some (bytesBE4 n.toNat) else none
  | .S k, .str s => some (s.take k ++ List.replicate (k - s.length) 0)
  | _, _ => none

/-- struct.pack: the argument count must match the format item count and
every item must pack; the packet is the concatenation of the pieces. -/
def packFmt : List FmtItem → List PackArg → Option (List Nat)
  | [], [] => some []
  | f :: fs, a :: rest => do
      let b ← packItem f a
      let p ← packFmt fs rest
      pure (b ++ p)
  | _, _ => none

/-- Format string of senderv6.py: '>HH' + ('i' * 42) + '5s'. -/
def fmtV6 : List FmtItem := [.H, .H] ++ List.replicate 42 .I32 ++ [.S 5]

/-- Format string of senderv7.py: '>HH' + ('i' * 20) + 'I' + ('i' * 21). -/
def fmtV7 : List FmtItem :=
  [.H, .H] ++ List.replicate 20 .I32 ++ [.U32] ++ List.replicate 21 .I32

/-- EXPECTED_PACKET_SIZE of senderv6.py, struct.calcsize of its format. -/
def EXPECTED_PACKET_SIZE_v6 : Nat := calcsize fmtV6

/-- EXPECTED_PACKET_SIZE of senderv7.py, struct.calcsize of its format. -/
def EXPECTED_PACKET_SIZE_v7 : Nat := calcsize fmtV7

theorem packItem_length {f : FmtItem} {a : PackArg} {b : List Nat}
    (h : packItem f a = some b) : b.length = itemSize f := by
  cases f <;> cases a <;> simp only [packItem] at h
  case H.int n =>
    split at h
    · injection h with h
      subst h
      simp [bytesBE2, itemSize]
    · exact (Option.noConfusion h)
  case H.str s => exact (Option.noConfusion h)
  case I32.int n =>
    split at h
    · injection h with h
      subst h
      simp [bytesBE4, itemSize]
    · exact (Option.noConfusion h)
  case I32.str s => exact (Option.noConfusion h)
  case U32.int n =>
    split at h
    · injection h with h
      subst h
      simp [bytesBE4, itemSize]
    · exact (Option.noConfusion h)
  case U32.str s => exact (Option.noConfusion h)
  case S.int k n => exact (Option.noConfusion h)
  case S.str k s =>
    injection h with h
    subst h
    simp [itemSize]
    omega

theorem packFmt_length :
    ∀ (fmt : List FmtItem) (args : List PackArg) (p : List Nat),
      packFmt fmt args = some p → p.length = calcsize fmt := by
  intro fmt
  induction fmt with
  | nil =>
    intro args p h
    cases args <;> simp [packFmt] at h
    subst h
    simp [calcsize]
  | cons f fs ih =>
    intro args p h
    cases args with
    | nil => simp [packFmt] at h
    | cons a rest =>
      simp [packFmt, Option.bind_eq_some] at h
      rcases h with ⟨b, hb, q, hq, rfl⟩
      have hb' := packItem_length hb
      have hq' := ih rest q hq
      simp only [List.length_append, calcsize, List.map_cons, List.sum_cons] at *
      omega

/-- Demonstration argument list for the senderv6 layout: the two header
constants MAGIC_ID = 0xFDFD and DATA_PACKET_TYPE = 0x10, 42 integers, and
the 5-byte flight string b'RC901'. -/
def argsV6demo : List PackArg :=
  PackArg.int 64989 :: PackArg.int 16 ::
    (List.replicate 42 (PackArg.int 1) ++ [PackArg.str [82, 67, 57, 48, 49]])

/-- Demonstration argument list for the senderv7 layout: the two header
constants and 42 integers (senderv7 appends no string field). -/
def argsV7demo : List PackArg :=
  PackArg.int 64989 :: PackArg.int 16 :: List.replicate 42 (PackArg.int 1)

/-- The packet senderv6's layout produces on `argsV6demo`. -/
def pktV6demo : List Nat := (packFmt fmtV6 argsV6demo).getD []

/-- The packet senderv7's layout produces on `argsV7demo`. -/
def pktV7demo : List Nat := (packFmt fmtV7 argsV7demo).getD []

/-- C1 (counterexample): the claim fixes EXPECTED_PACKET_SIZE at 177 bytes,
but senderv7's declared format '>HH' + 'i'*20 + 'I' + 'i'*21 has
struct.calcsize 172, and a concrete senderv7 packet is 172 bytes long, not
177 (the "# 177 bytes" comment in senderv7.py is stale). -/
theorem senderv7_packet_is_172_bytes :
    EXPECTED_PACKET_SIZE_v7 = 172 ∧ EXPECTED_PACKET_SIZE_v7 ≠ 177 ∧
      packFmt fmtV7 argsV7demo = some pktV7demo ∧ pktV7demo.length ≠ 177 := by
  refine ⟨by decide, by decide, rfl, by decide⟩

/-- C1 (amended): for each revision, whenever struct.pack succeeds the packet
length equals the statically computed constant EXPECTED_PACKET_SIZE of that
revision (struct.calcsize of the declared format: 177 bytes for senderv6,
172 bytes for senderv7), and the encoding is deterministic: packing the same
argument snapshot twice yields identical byte sequences. -/
theorem packet_length_matches_declared_size :
    (∀ args p, packFmt fmtV6 args = some p →
       p.length = EXPECTED_PACKET_SIZE_v6 ∧
         ∀ q, packFmt fmtV6 args = some q → q = p) ∧
    (∀ args p, packFmt fmtV7 args = some p →
       p.length = EXPECTED_PACKET_SIZE_v7 ∧
         ∀ q, packFmt fmtV7 args = some q → q = p) ∧
    EXPECTED_PACKET_SIZE_v6 = 177 ∧ EXPECTED_PACKET_SIZE_v7 = 172 := by
  refine ⟨?_, ?_, by decide, by decide⟩ <;> intro args p hp <;>
    exact ⟨packFmt_length _ _ _ hp,
      fun q hq => by rw [hq] at hp; injection hp⟩

/-- C1 (witness): the amended theorem applied to concrete argument lists for
both revisions; the resulting packets have the declared sizes. -/
theorem packet_length_matches_declared_size_witness :
    packFmt fmtV6 argsV6demo = some pktV6demo ∧
      pktV6demo.length = EXPECTED_PACKET_SIZE_v6 ∧
      packFmt fmtV7 argsV7demo = some pktV7demo ∧
      pktV7demo.length = EXPECTED_PACKET_SIZE_v7 := by
  have h6 : packFmt fmtV6 argsV6demo = some pktV6demo := rfl
  have h7 : packFmt fmtV7 argsV7demo = some pktV7demo := rfl
  exact ⟨h6, (packet_length_matches_declared_size.1 argsV6demo pktV6demo h6).1,
    h7, (packet_length_matches_declared_size.2.1 argsV7demo pktV7demo h7).1⟩

/-! ## Flight phase state machine

The main loops of senderv6.py and senderv7.py are identical here: every tick
scans PHASE_TIMINGS in ascending threshold order, overwriting current_phase
whenever elapsed has reached a threshold, and then forces current_phase = 8
once fraction = min(elapsed / TOTAL_FLIGHT_SECONDS, 1.0) has reached 1.0.
The elapsed clock is a float; the machine is stated over any linear ordered
field and used at `Rat`. -/

/-- TOTAL_FLIGHT_SECONDS constant of both senders. -/
def TOTAL_FLIGHT_SECONDS : ℕ := 600

/-- PHASE_TIMINGS of both senders, listed in the ascending key order that
sorted(PHASE_TIMINGS.items()) produces in the main loop. -/
def PHASE_TIMINGS : List (ℕ × ℕ) :=
  [(30, 2), (60, 3), (180, 4), (480, 5), (540, 6), (600, 7)]

/-- The threshold-table scan of the main loop: for each (t, phase) pair in
order, current_phase is overwritten with phase whenever elapsed >= t. -/
def phaseScan {α : Type} [LinearOrderedField α] (prev : ℕ) (e : α) : ℕ :=
  PHASE_TIMINGS.foldl (fun cp tp => if (tp.1 : α) ≤ e then tp.2 else cp) prev

/-- fraction = min(elapsed / TOTAL_FLIGHT_SECONDS, 1.0). -/
def fraction {α : Type} [LinearOrderedField α] (e : α) : α :=
  min (e / (TOTAL_FLIGHT_SECONDS : α)) 1

/-- Phase update of one tick: the threshold-table scan followed by the
forced-terminal rule (current_phase = 8 once fraction >= 1.0). -/
def stepPhase {α : Type} [LinearOrderedField α] (prev : ℕ) (e : α) : ℕ :=
  if 1 ≤ fraction e then 8 else phaseScan prev e

/-- The transmitted phase along a run: current_phase starts at 1 and each
tick applies `stepPhase` to the tick's elapsed value. -/
def phaseSeq (e : ℕ → ℚ) : ℕ → ℕ
  | 0 => stepPhase 1 (e 0)
  | n + 1 => stepPhase (phaseSeq e n) (e (n + 1))

theorem one_le_fraction_iff {α : Type} [LinearOrderedField α] (e : α) :
    1 ≤ fraction e ↔ (600 : α) ≤ e := by
  have h : ((TOTAL_FLIGHT_SECONDS : ℕ) : α) = (600 : α) := by
    norm_num [TOTAL_FLIGHT_SECONDS]
  rw [fraction, h, le_min_iff]
  constructor
  · intro hmin
    have h1 := hmin.1
    rw [le_div_iff₀ (by norm_num : (0 : α) < 600)] at h1
    linarith
  · intro h600
    refine ⟨?_, le_refl 1⟩
    rw [le_div_iff₀ (by norm_num : (0 : α) < 600)]
    linarith

/-- Closed form of the phase after a tick, valid whenever the incoming phase
is what the machine itself produced at a not-larger elapsed value. -/
def phasePure (x : ℚ) : ℕ :=
  if 600 ≤ x then 8 else if 540 ≤ x then 6 else if 480 ≤ x then 5
  else if 180 ≤ x then 4 else if 60 ≤ x then 3 else if 30 ≤ x then 2 else 1

theorem stepPhase_eq_phasePure (prev : ℕ) (x : ℚ) (hx : x < 30 → prev = 1) :
    stepPhase prev x = phasePure x := by
  simp only [stepPhase, phaseScan, PHASE_TIMINGS, List.foldl_cons,
    List.foldl_nil, one_le_fraction_iff, Nat.cast_ofNat, phasePure]
  split_ifs <;> first | rfl | (exact hx (by linarith)) | (exfalso; linarith)

theorem phasePure_mono : Monotone phasePure := by
  intro a b hab
  unfold phasePure
  split_ifs <;> try omega
  all_goals (exfalso; linarith)

theorem phaseSeq_eq_phasePure (e : ℕ → ℚ) (he : Monotone e) :
    ∀ n, phaseSeq e n = phasePure (e n) := by
  intro n
  induction n with
  | zero => exact stepPhase_eq_phasePure 1 (e 0) (fun _ => rfl)
  | succ n ih =>
    rw [phaseSeq, ih]
    apply stepPhase_eq_phasePure
    intro hlt
    have hle : e n ≤ e (n + 1) := he (Nat.le_succ n)
    unfold phasePure
    split_ifs <;> first | rfl | (exfalso; linarith)

/-- C4: for every monotonically non-decreasing elapsed-time sequence fed
through the phase state machine (threshold-table scan plus forced-terminal
rule, starting from phase 1), the resulting phase sequence is monotonically
non-decreasing: there is no backward phase transition. -/
theorem phase_monotone (e : ℕ → ℚ) (he : Monotone e) : Monotone (phaseSeq e) := by
  intro i j hij
  rw [phaseSeq_eq_phasePure e he i, phaseSeq_eq_phasePure e he j]
  exact phasePure_mono (he hij)

/-- C4 (witness): the identity elapsed sequence is monotone and the phase
sequence it induces is monotone. -/
theorem phase_monotone_witness :
    Monotone (fun n : ℕ => (n : ℚ)) ∧
      Monotone (phaseSeq fun n : ℕ => (n : ℚ)) := by
  have h : Monotone (fun n : ℕ => (n : ℚ)) := Nat.mono_cast
  exact ⟨h, phase_monotone _ h⟩

theorem stepPhase_ne_seven (prev : ℕ) (x : ℚ) (hprev : prev ≠ 7) :
    stepPhase prev x ≠ 7 := by
  simp only [stepPhase, phaseScan, PHASE_TIMINGS, List.foldl_cons,
    List.foldl_nil, one_le_fraction_iff, Nat.cast_ofNat]
  split_ifs <;> first | omega | (exfalso; linarith)

/-- C9: phase 7 (Landing) is never transmitted: its threshold 600 coincides
with TOTAL_FLIGHT_SECONDS, where fraction reaches 1.0 and the phase is
forced to 8 in the same tick before the packet is sent, so no tick of any
run ever yields phase 7. -/
theorem phase_seven_never_transmitted (e : ℕ → ℚ) : ∀ n, phaseSeq e n ≠ 7 := by
  intro n
  induction n with
  | zero => exact stepPhase_ne_seven 1 (e 0) (by omega)
  | succ n ih => exact stepPhase_ne_seven _ (e (n + 1)) ih

/-! ## Estimated-arrival-time field

senderv7.send_data_packet computes
  current_minutes_today = start_time.hour * 60 + start_time.minute * 1.2
  estimated_arrival_time = (current_minutes_today + TOTAL_FLIGHT_SECONDS/60) % 1440
and packs int(estimated_arrival_time); senderv6.send_data_packet instead
packs epoch_time + int(remaining_time).  Floats are modelled as exact
rationals (the float literal 1.2 is the rational 6/5 up to 2^-53, which
never moves an integer truncation in this formula's range). -/

/-- Python int() truncation toward zero on a rational. -/
def pyint (q : ℚ) : ℤ := if 0 ≤ q then ⌊q⌋ else -⌊-q⌋

/-- Python float modulo, for a positive divisor: a % b = a - b * floor(a / b). -/
def pymod (a b : ℚ) : ℚ := a - b * ⌊a / b⌋

/-- current_minutes_today of senderv7.send_data_packet:
start_time.hour * 60 + start_time.minute * 1.2. -/
def current_minutes_today (hour minute : ℕ) : ℚ :=
  (hour : ℚ) * 60 + (minute : ℚ) * (6 / 5)

/-- estimated_arrival_time of senderv7.send_data_packet:
(current_minutes_today + (TOTAL_FLIGHT_SECONDS / 60)) % 1440. -/
def estimated_arrival_time_v7 (hour minute : ℕ) : ℚ :=
  pymod (current_minutes_today hour minute + (TOTAL_FLIGHT_SECONDS : ℚ) / 60) 1440

/-- ETA integer senderv7 places in packet slot 16: int(estimated_arrival_time). -/
def eta_field_v7 (hour minute : ℕ) : ℤ := pyint (estimated_arrival_time_v7 hour minute)

/-- estimated_arrival_time of senderv6.send_data_packet:
epoch_time + int(remaining_time), remaining_time = max(TOTAL_FLIGHT_SECONDS - elapsed, 0). -/
def eta_field_v6 (epoch_time : ℤ) (elapsed : ℚ) : ℤ :=
  epoch_time + pyint (max ((TOTAL_FLIGHT_SECONDS : ℚ) - elapsed) 0)

/-- Modelled from the spec: the claim's formula for the field, departure
wall-clock time in minutes of the day (hour * 60 + minute) plus the total
flight duration in minutes, wrapped modulo 1440. -/
def eta_minutes_claimed (hour minute : ℕ) : ℤ :=
  ((hour : ℤ) * 60 + (minute : ℤ) + (TOTAL_FLIGHT_SECONDS : ℤ) / 60) % 1440

/-- C5 (counterexample): for a departure wall clock of 12:50, senderv7
transmits 790 (it scales the minute by 1.2) while the claimed formula gives
780; senderv6 does not transmit a minutes-of-day quantity at all: at epoch
time 1760000000 and elapsed 0 its field is 1760000600, an epoch-seconds
value far outside [0, 1440). -/
theorem eta_field_differs_from_claim :
    eta_field_v7 12 50 = 790 ∧ eta_minutes_claimed 12 50 = 780 ∧
      eta_field_v7 12 50 ≠ eta_minutes_claimed 12 50 ∧
      eta_field_v6 1760000000 0 = 1760000600 := by
  refine ⟨?_, ?_, ?_, ?_⟩ <;>
    norm_num [eta_field_v7, estimated_arrival_time_v7, current_minutes_today,
      pymod, pyint, TOTAL_FLIGHT_SECONDS, eta_minutes_claimed, eta_field_v6]

theorem floor_div_intCast (a : ℚ) (n : ℤ) (hn : 0 < n) :
    ⌊a / (n : ℚ)⌋ = ⌊a⌋ / n := by
  have hn' : (0 : ℚ) < (n : ℚ) := by exact_mod_cast hn
  rw [Int.floor_eq_iff]
  constructor
  · rw [le_div_iff₀ hn']
    have h1 : ⌊a⌋ / n * n ≤ ⌊a⌋ := Int.ediv_mul_le ⌊a⌋ (by omega)
    calc ((⌊a⌋ / n : ℤ) : ℚ) * (n : ℚ) = ((⌊a⌋ / n * n : ℤ) : ℚ) := by push_cast; ring
    _ ≤ ((⌊a⌋ : ℤ) : ℚ) := by exact_mod_cast h1
    _ ≤ a := Int.floor_le a
  · rw [div_lt_iff₀ hn']
    have h1 : a < (⌊a⌋ : ℚ) + 1 := Int.lt_floor_add_one a
    have h2 : ⌊a⌋ + 1 ≤ (⌊a⌋ / n + 1) * n := by
      have hmod := Int.emod_lt_of_pos ⌊a⌋ hn
      have hdiv := Int.ediv_add_emod ⌊a⌋ n
      nlinarith
    calc a < (⌊a⌋ : ℚ) + 1 := h1
    _ ≤ (((⌊a⌋ / n + 1) * n : ℤ) : ℚ) := by exact_mod_cast h2
    _ = (((⌊a⌋ / n : ℤ) : ℚ) + 1) * (n : ℚ) := by push_cast; ring

/-- C5 (amended): the ETA field senderv7 transmits is
(hour * 60 + floor(1.2 * minute) + 10) mod 1440 — the start minute is
scaled by 1.2 before being added, and the flight duration contributes
TOTAL_FLIGHT_SECONDS / 60 = 10 minutes; senderv6 instead transmits the
epoch-seconds value epoch_time + int(remaining_time). -/
theorem eta_field_v7_formula (hour minute : ℕ) :
    eta_field_v7 hour minute =
      ((hour : ℤ) * 60 + 6 * (minute : ℤ) / 5 + 10) % 1440 := by
  have h60 : (TOTAL_FLIGHT_SECONDS : ℚ) / 60 = 10 := by
    norm_num [TOTAL_FLIGHT_SECONDS]
  set v : ℚ := current_minutes_today hour minute + (TOTAL_FLIGHT_SECONDS : ℚ) / 60 with hv
  have hfloorv : ⌊v⌋ = (hour : ℤ) * 60 + 6 * (minute : ℤ) / 5 + 10 := by
    have hv2 : v = ((6 * (minute : ℤ) : ℤ) : ℚ) / ((5 : ℕ) : ℚ) +
        ((hour * 60 + 10 : ℤ) : ℚ) := by
      rw [hv, current_minutes_today, h60]
      push_cast
      ring
    rw [hv2, Int.floor_add_int, Rat.floor_intCast_div_natCast]
    push_cast
    ring
  have hq : ⌊v / (1440 : ℚ)⌋ = ⌊v⌋ / 1440 := by
    have := floor_div_intCast v 1440 (by norm_num)
    simpa using this
  have hmodnn : (0 : ℚ) ≤ pymod v 1440 := by
    rw [pymod]
    have h1 : (⌊v / (1440 : ℚ)⌋ : ℚ) ≤ v / 1440 := Int.floor_le _
    nlinarith
  have hcast : (1440 : ℚ) * (⌊v / (1440 : ℚ)⌋ : ℚ) =
      ((1440 * ⌊v / (1440 : ℚ)⌋ : ℤ) : ℚ) := by push_cast; ring
  rw [eta_field_v7, estimated_arrival_time_v7, ← hv, pyint, if_pos hmodnn,
    pymod, hcast, Int.floor_sub_int, hq, ← hfloorv, Int.emod_def]

/-! ## Airport-code packing

senderv6.encode_airport left-justifies the code to 4 bytes with spaces and
reinterprets them as a big-endian signed 32-bit integer ('>i');
senderv7.encode_airport first strips surrounding whitespace and upcases,
then pads and reinterprets little-endian unsigned ('<I').  Decoding back
under the same padding/byte-order convention is the downstream consumer's
side and is modelled from the spec. -/

/-- Python str.strip() whitespace test restricted to the ASCII range. -/
def isSpaceChar (c : Nat) : Bool :=
  c == 32 || c == 9 || c == 10 || c == 13 || c == 11 || c == 12

/-- Python str.upper() on one ASCII byte. -/
def pyUpperChar (c : Nat) : Nat := if 97 ≤ c ∧ c ≤ 122 then c - 32 else c

/-- Python str.strip(): drop leading and trailing whitespace. -/
def pyStrip (s : List Nat) : List Nat :=
  ((s.dropWhile isSpaceChar).reverse.dropWhile isSpaceChar).reverse

/-- Python str.ljust(w, ' '): pad on the right with spaces to width w. -/
def ljust (w : Nat) (s : List Nat) : List Nat :=
  s ++ List.replicate (w - s.length) 32

/-- struct.unpack('>i', bytes): 4 bytes, big-endian, two's-complement. -/
def int32_of_be (bs : List Nat) : ℤ :=
  if bs.foldl (fun a b => a * 256 + b) 0 < 2147483648 then
    ((bs.foldl (fun a b => a * 256 + b) 0 : ℕ) : ℤ)
  else ((bs.foldl (fun a b => a * 256 + b) 0 : ℕ) : ℤ) - 4294967296

/-- struct.unpack('<I', bytes): 4 bytes, little-endian, unsigned. -/
def uint32_of_le (bs : List Nat) : ℤ :=
  (bs.foldr (fun b a => a * 256 + b) 0 : ℕ)

/-- encode_airport of senderv6.py: struct.unpack('>i', code[:4].ljust(4)). -/
def encode_airport_v6 (code : List Nat) : ℤ := int32_of_be (ljust 4 (code.take 4))

/-- encode_airport of senderv7.py:
struct.unpack('<I', code.strip().upper().ljust(4)[:4]). -/
def encode_airport_v7 (code : List Nat) : ℤ :=
  uint32_of_le ((ljust 4 ((pyStrip code).map pyUpperChar)).take 4)

/-- Modelled from the spec: the consumer-side decoding of a big-endian
packed code slot, absent from src/ — the four big-endian bytes of the
integer's 32-bit representation. -/
def decode_airport_be (n : ℤ) : List Nat :=
  [(n % 4294967296).toNat / 16777216 % 256, (n % 4294967296).toNat / 65536 % 256,
    (n % 4294967296).toNat / 256 % 256, (n % 4294967296).toNat % 256]

/-- Modelled from the spec: the consumer-side decoding of a little-endian
packed code slot, absent from src/ — the four little-endian bytes of the
integer's 32-bit representation. -/
def decode_airport_le (n : ℤ) : List Nat :=
  [(n % 4294967296).toNat % 256, (n % 4294967296).toNat / 256 % 256,
    (n % 4294967296).toNat / 65536 % 256, (n % 4294967296).toNat / 16777216 % 256]

/-- Characters an airport code may contain: ASCII digits and upper-case
letters. -/
def isAirportChar (c : Nat) : Prop := (48 ≤ c ∧ c ≤ 57) ∨ (65 ≤ c ∧ c ≤ 90)

instance (c : Nat) : Decidable (isAirportChar c) := by
  unfold isAirportChar
  infer_instance

theorem dropWhile_eq_self_of_none {p : Nat → Bool} :
    ∀ {l : List Nat}, (∀ c ∈ l, p c = false) → l.dropWhile p = l := by
  intro l h
  cases l with
  | nil => rfl
  | cons a t =>
    rw [List.dropWhile_cons]
    simp [h a (List.mem_cons_self a t)]

theorem pyStrip_eq_self {l : List Nat} (h : ∀ c ∈ l, isSpaceChar c = false) :
    pyStrip l = l := by
  rw [pyStrip, dropWhile_eq_self_of_none h, dropWhile_eq_self_of_none
    (fun c hc => h c (List.mem_reverse.mp hc)), List.reverse_reverse]

theorem map_pyUpperChar_eq_self {l : List Nat}
    (h : ∀ c ∈ l, isAirportChar c) : l.map pyUpperChar = l := by
  induction l with
  | nil => rfl
  | cons a t ih =>
    have ha := h a (List.mem_cons_self a t)
    have : pyUpperChar a = a := by
      rcases ha with ⟨h1, h2⟩ | ⟨h1, h2⟩ <;> (rw [pyUpperChar, if_neg]; omega)
    simp [this, ih (fun c hc => h c (List.mem_cons_of_mem a hc))]

theorem airportChar_not_space {c : Nat} (h : isAirportChar c) :
    isSpaceChar c = false := by
  rcases h with ⟨h1, h2⟩ | ⟨h1, h2⟩ <;>
    (simp only [isSpaceChar, Bool.or_eq_false_iff, beq_eq_false_iff_ne]; omega)

theorem roundtrip4_be {a b c d : Nat} (ha : a < 128) (hb : b < 256)
    (hc : c < 256) (hd : d < 256) :
    decode_airport_be (int32_of_be [a, b, c, d]) = [a, b, c, d] := by
  simp only [int32_of_be, List.foldl_cons, List.foldl_nil, decode_airport_be]
  split
  · simp only [List.cons.injEq, and_true]
    omega
  · exfalso
    omega

theorem roundtrip4_le {a b c d : Nat} (ha : a < 256) (hb : b < 256)
    (hc : c < 256) (hd : d < 128) :
    decode_airport_le (uint32_of_le [a, b, c, d]) = [a, b, c, d] := by
  simp only [uint32_of_le, List.foldr_cons, List.foldr_nil, decode_airport_le]
  simp only [List.cons.injEq, and_true]
  omega

theorem roundtrip_list_be (l : List Nat) (hlen : l.length = 4)
    (hb : ∀ x ∈ l, x < 128) :
    decode_airport_be (int32_of_be l) = l := by
  rcases l with _ | ⟨a, _ | ⟨b, _ | ⟨c, _ | ⟨d, _ | ⟨e, t⟩⟩⟩⟩⟩ <;> simp at hlen
  exact roundtrip4_be (hb a (by simp))
    (by have := hb b (by simp); omega)
    (by have := hb c (by simp); omega)
    (by have := hb d (by simp); omega)

theorem roundtrip_list_le (l : List Nat) (hlen : l.length = 4)
    (hb : ∀ x ∈ l, x < 128) :
    decode_airport_le (uint32_of_le l) = l := by
  rcases l with _ | ⟨a, _ | ⟨b, _ | ⟨c, _ | ⟨d, _ | ⟨e, t⟩⟩⟩⟩⟩ <;> simp at hlen
  exact roundtrip4_le (by have := hb a (by simp); omega)
    (by have := hb b (by simp); omega)
    (by have := hb c (by simp); omega)
    (hb d (by simp))

theorem mem_ljust4_lt (code : List Nat)
    (hchars : ∀ c ∈ code, isAirportChar c) : ∀ x ∈ ljust 4 code, x < 128 := by
  intro x hx
  rw [ljust] at hx
  rcases List.mem_append.mp hx with h | h
  · rcases hchars x h with ⟨h1, h2⟩ | ⟨h1, h2⟩ <;> omega
  · have := List.eq_of_mem_replicate h
    omega

/-- C8: for every airport code of at most 4 ASCII characters (digits or
upper-case letters), packing it as each revision does — left-justify with
space padding to width 4 and reinterpret the padded bytes as an integer,
big-endian signed in senderv6, little-endian unsigned in senderv7 — and
decoding back under the same byte-order convention yields the original
code with trailing spaces. -/
theorem airport_code_roundtrip (code : List Nat) (hlen : code.length ≤ 4)
    (hchars : ∀ c ∈ code, isAirportChar c) :
    decode_airport_be (encode_airport_v6 code) = ljust 4 code ∧
      decode_airport_le (encode_airport_v7 code) = ljust 4 code := by
  have hb := mem_ljust4_lt code hchars
  have hlj : (ljust 4 code).length = 4 := by
    rw [ljust]
    simp
    omega
  constructor
  · rw [encode_airport_v6, List.take_of_length_le hlen]
    exact roundtrip_list_be _ hlj hb
  · rw [encode_airport_v7,
      pyStrip_eq_self (fun c hc => airportChar_not_space (hchars c hc)),
      map_pyUpperChar_eq_self hchars, List.take_of_length_le (le_of_eq hlj)]
    exact roundtrip_list_le _ hlj hb

/-- C8 (witness): the round-trip theorem applied to the concrete code
"ORD" (bytes 79, 82, 68): both revisions decode back to "ORD ". -/
theorem airport_code_roundtrip_witness :
    ([79, 82, 68] : List Nat).length ≤ 4 ∧
      (∀ c ∈ ([79, 82, 68] : List Nat), isAirportChar c) ∧
      decode_airport_be (encode_airport_v6 [79, 82, 68]) = ljust 4 [79, 82, 68] ∧
      decode_airport_le (encode_airport_v7 [79, 82, 68]) = ljust 4 [79, 82, 68] := by
  have h1 : ([79, 82, 68] : List Nat).length ≤ 4 := by decide
  have h2 : ∀ c ∈ ([79, 82, 68] : List Nat), isAirportChar c := by decide
  have h := airport_code_roundtrip [79, 82, 68] h1 h2
  exact ⟨h1, h2, h.1, h.2⟩

/-! ## Navigation model

interpolate_great_circle, compute_heading and the trigonometric pieces of
send_data_packet, identical in senderv6.py and senderv7.py, modelled over
the real numbers.  math.atan2(y, x) is the argument of the complex number
x + y*i, in (-pi, pi]. -/

/-- math.radians. -/
noncomputable def radians (d : ℝ) : ℝ := d * (Real.pi / 180)

/-- math.degrees. -/
noncomputable def degrees (r : ℝ) : ℝ := r * (180 / Real.pi)

/-- math.atan2(y, x). -/
noncomputable def atan2 (y x : ℝ) : ℝ :=
  Complex.arg (Complex.ofReal x + Complex.ofReal y * Complex.I)

/-- x1 = cos(lat1_rad) * cos(lon1_rad) of interpolate_great_circle. -/
noncomputable def sphx (lat lon : ℝ) : ℝ :=
  Real.cos (radians lat) * Real.cos (radians lon)

/-- y1 = cos(lat1_rad) * sin(lon1_rad) of interpolate_great_circle. -/
noncomputable def sphy (lat lon : ℝ) : ℝ :=
  Real.cos (radians lat) * Real.sin (radians lon)

/-- z1 = sin(lat1_rad) of interpolate_great_circle. -/
noncomputable def sphz (lat : ℝ) : ℝ := Real.sin (radians lat)

/-- The dot product x1*x2 + y1*y2 + z1*z2 of interpolate_great_circle,
before clamping. -/
noncomputable def sphDot (lat1 lon1 lat2 lon2 : ℝ) : ℝ :=
  sphx lat1 lon1 * sphx lat2 lon2 + sphy lat1 lon1 * sphy lat2 lon2 +
    sphz lat1 * sphz lat2

/-- omega = acos(max(min(dot, 1.0), -1.0)) of interpolate_great_circle. -/
noncomputable def centralAngle (lat1 lon1 lat2 lon2 : ℝ) : ℝ :=
  Real.arccos (max (min (sphDot lat1 lon1 lat2 lon2) 1) (-1))

/-- One slerp coefficient sin(f * omega) / sin(omega); the source's t1 is
tcoef (1 - fraction) omega and t2 is tcoef fraction omega. -/
noncomputable def tcoef (f om : ℝ) : ℝ := Real.sin (f * om) / Real.sin om

/-- interpolate_great_circle of both senders: spherical linear
interpolation with the omega = 0 guard returning (lat1, lon1); the result
converts the mixed vector (x, y, z) back with
(degrees(atan2(z, sqrt(x*x + y*y))), degrees(atan2(y, x))). -/
noncomputable def interpolate_great_circle
    (lat1 lon1 lat2 lon2 fraction : ℝ) : ℝ × ℝ :=
  if centralAngle lat1 lon1 lat2 lon2 = 0 then (lat1, lon1)
  else
    (degrees (atan2
      (tcoef (1 - fraction) (centralAngle lat1 lon1 lat2 lon2) * sphz lat1 +
        tcoef fraction (centralAngle lat1 lon1 lat2 lon2) * sphz lat2)
      (Real.sqrt
        ((tcoef (1 - fraction) (centralAngle lat1 lon1 lat2 lon2) * sphx lat1 lon1 +
            tcoef fraction (centralAngle lat1 lon1 lat2 lon2) * sphx lat2 lon2) *
          (tcoef (1 - fraction) (centralAngle lat1 lon1 lat2 lon2) * sphx lat1 lon1 +
            tcoef fraction (centralAngle lat1 lon1 lat2 lon2) * sphx lat2 lon2) +
          (tcoef (1 - fraction) (centralAngle lat1 lon1 lat2 lon2) * sphy lat1 lon1 +
            tcoef fraction (centralAngle lat1 lon1 lat2 lon2) * sphy lat2 lon2) *
          (tcoef (1 - fraction) (centralAngle lat1 lon1 lat2 lon2) * sphy lat1 lon1 +
            tcoef fraction (centralAngle lat1 lon1 lat2 lon2) * sphy lat2 lon2)))),
    degrees (atan2
      (tcoef (1 - fraction) (centralAngle lat1 lon1 lat2 lon2) * sphy lat1 lon1 +
        tcoef fraction (centralAngle lat1 lon1 lat2 lon2) * sphy lat2 lon2)
      (tcoef (1 - fraction) (centralAngle lat1 lon1 lat2 lon2) * sphx lat1 lon1 +
        tcoef fraction (centralAngle lat1 lon1 lat2 lon2) * sphx lat2 lon2)))

theorem degrees_radians (d : ℝ) : degrees (radians d) = d := by
  rw [radians, degrees]
  have h := Real.pi_ne_zero
  field_simp

/-- C7: for identical endpoints the clamped dot product is exactly 1, the
central angle is 0, and interpolate_great_circle takes the guarded branch,
returning the point unchanged for every fraction — in particular the
division by sin(omega) is never reached. -/
theorem interpolate_identical (lat lon f : ℝ) :
    interpolate_great_circle lat lon lat lon f = (lat, lon) := by
  have hdot : sphDot lat lon lat lon = 1 := by
    rw [sphDot, sphx, sphy, sphz]
    linear_combination
      (Real.cos (radians lat) * Real.cos (radians lat)) *
          Real.sin_sq_add_cos_sq (radians lon) +
        Real.sin_sq_add_cos_sq (radians lat)
  have hca : centralAngle lat lon lat lon = 0 := by
    rw [centralAngle, hdot, min_self, max_eq_left (by norm_num : (-1 : ℝ) ≤ 1)]
    exact Real.arccos_one
  rw [interpolate_great_circle, if_pos hca]

theorem atan2_cos_sin {θ : ℝ} (hθ : θ ∈ Set.Ioc (-Real.pi) Real.pi) :
    atan2 (Real.sin θ) (Real.cos θ) = θ := by
  have h := Complex.arg_cos_add_sin_mul_I hθ
  rw [← Complex.ofReal_cos, ← Complex.ofReal_sin] at h
  exact h

theorem atan2_smul {r : ℝ} (hr : 0 < r) (y x : ℝ) :
    atan2 (r * y) (r * x) = atan2 y x := by
  rw [atan2, atan2]
  have h : Complex.ofReal (r * x) + Complex.ofReal (r * y) * Complex.I =
      Complex.ofReal r * (Complex.ofReal x + Complex.ofReal y * Complex.I) := by
    push_cast
    ring
  rw [h, Complex.arg_real_mul _ hr]

theorem radians_mem_Ioc {d : ℝ} (h1 : -180 < d) (h2 : d ≤ 180) :
    radians d ∈ Set.Ioc (-Real.pi) Real.pi := by
  have hpos : (0 : ℝ) < Real.pi / 180 := by positivity
  have hd : radians d = d * (Real.pi / 180) := rfl
  constructor
  · rw [hd]
    have h3 := mul_lt_mul_of_pos_right h1 hpos
    have h4 : (-180 : ℝ) * (Real.pi / 180) = -Real.pi := by ring
    linarith
  · rw [hd]
    have h3 := mul_le_mul_of_nonneg_right h2 hpos.le
    have h4 : (180 : ℝ) * (Real.pi / 180) = Real.pi := by ring
    linarith

theorem radians_mem_Ioo {d : ℝ} (h1 : -90 < d) (h2 : d < 90) :
    radians d ∈ Set.Ioo (-(Real.pi / 2)) (Real.pi / 2) := by
  have hpos : (0 : ℝ) < Real.pi / 180 := by positivity
  have hd : radians d = d * (Real.pi / 180) := rfl
  constructor
  · rw [hd]
    have h3 := mul_lt_mul_of_pos_right h1 hpos
    have h4 : (-90 : ℝ) * (Real.pi / 180) = -(Real.pi / 2) := by ring
    linarith
  · rw [hd]
    have h3 := mul_lt_mul_of_pos_right h2 hpos
    have h4 : (90 : ℝ) * (Real.pi / 180) = Real.pi / 2 := by ring
    linarith

theorem latlon_recover (lat lon : ℝ) (hlat1 : -90 < lat) (hlat2 : lat < 90)
    (hlon1 : -180 < lon) (hlon2 : lon ≤ 180) :
    degrees (atan2 (sphz lat)
        (Real.sqrt (sphx lat lon * sphx lat lon + sphy lat lon * sphy lat lon))) = lat ∧
      degrees (atan2 (sphy lat lon) (sphx lat lon)) = lon := by
  have hφ := radians_mem_Ioo hlat1 hlat2
  have hcos : 0 < Real.cos (radians lat) := Real.cos_pos_of_mem_Ioo hφ
  have hsq : sphx lat lon * sphx lat lon + sphy lat lon * sphy lat lon =
      Real.cos (radians lat) * Real.cos (radians lat) := by
    rw [sphx, sphy]
    linear_combination
      (Real.cos (radians lat) * Real.cos (radians lat)) *
        Real.sin_sq_add_cos_sq (radians lon)
  have hφIoc : radians lat ∈ Set.Ioc (-Real.pi) Real.pi := by
    have hπ := Real.pi_pos
    exact ⟨by have := hφ.1; linarith, by have := hφ.2; linarith⟩
  constructor
  · rw [hsq, Real.sqrt_mul_self hcos.le, sphz, atan2_cos_sin hφIoc]
    exact degrees_radians lat
  · rw [sphx, sphy, atan2_smul hcos, atan2_cos_sin (radians_mem_Ioc hlon1 hlon2)]
    exact degrees_radians lon

/-- C6 (counterexample): (90, 10) and (90, 20) are two distinct points, but
both map to the north-pole unit vector, so the dot product is 1, the central
angle is 0 and the guard returns p1: interpolate_great_circle at fraction 1
yields (90, 10), not p2 = (90, 20) — far beyond floating tolerance. -/
theorem interpolate_endpoint_fails_at_pole :
    ((90 : ℝ), (10 : ℝ)) ≠ ((90 : ℝ), (20 : ℝ)) ∧
      interpolate_great_circle 90 10 90 20 1 = ((90 : ℝ), (10 : ℝ)) ∧
      interpolate_great_circle 90 10 90 20 1 ≠ ((90 : ℝ), (20 : ℝ)) := by
  have hr : radians 90 = Real.pi / 2 := by
    rw [radians]
    ring
  have hdot : sphDot 90 10 90 20 = 1 := by
    simp only [sphDot, sphx, sphy, sphz, hr, Real.cos_pi_div_two,
      Real.sin_pi_div_two]
    ring
  have hca : centralAngle 90 10 90 20 = 0 := by
    rw [centralAngle, hdot, min_self, max_eq_left (by norm_num : (-1 : ℝ) ≤ 1)]
    exact Real.arccos_one
  have heval : interpolate_great_circle 90 10 90 20 1 = ((90 : ℝ), (10 : ℝ)) := by
    rw [interpolate_great_circle, if_pos hca]
  refine ⟨?_, heval, ?_⟩
  · intro h
    have h2 := congrArg Prod.snd h
    norm_num at h2
  · rw [heval]
    intro h
    have h2 := congrArg Prod.snd h
    norm_num at h2

/-- C6 (amended): for two points with latitudes strictly inside (-90, 90)
and longitudes in (-180, 180] whose unit vectors are neither identical nor
antipodal (dot product strictly between -1 and 1), the great-circle
interpolation returns p1 exactly at fraction 0 and p2 exactly at fraction 1
(exactly in the real-number model, hence within floating tolerance in the
float implementation). -/
theorem interpolate_endpoints (lat1 lon1 lat2 lon2 : ℝ)
    (h1a : -90 < lat1) (h1b : lat1 < 90) (h1c : -180 < lon1) (h1d : lon1 ≤ 180)
    (h2a : -90 < lat2) (h2b : lat2 < 90) (h2c : -180 < lon2) (h2d : lon2 ≤ 180)
    (hlt : sphDot lat1 lon1 lat2 lon2 < 1) (hgt : -1 < sphDot lat1 lon1 lat2 lon2) :
    interpolate_great_circle lat1 lon1 lat2 lon2 0 = (lat1, lon1) ∧
      interpolate_great_circle lat1 lon1 lat2 lon2 1 = (lat2, lon2) := by
  have hclamp : max (min (sphDot lat1 lon1 lat2 lon2) 1) (-1) =
      sphDot lat1 lon1 lat2 lon2 := by
    rw [min_eq_left hlt.le, max_eq_left (by linarith)]
  have hca : centralAngle lat1 lon1 lat2 lon2 =
      Real.arccos (sphDot lat1 lon1 lat2 lon2) := by
    rw [centralAngle, hclamp]
  have hω0 : Real.arccos (sphDot lat1 lon1 lat2 lon2) ≠ 0 := by
    intro h
    have := Real.arccos_eq_zero.mp h
    linarith
  have hωπ : Real.arccos (sphDot lat1 lon1 lat2 lon2) ≠ Real.pi := by
    intro h
    have := Real.arccos_eq_pi.mp h
    linarith
  have hωpos : 0 < Real.arccos (sphDot lat1 lon1 lat2 lon2) :=
    Real.arccos_pos.mpr hlt
  have hωlt : Real.arccos (sphDot lat1 lon1 lat2 lon2) < Real.pi :=
    lt_of_le_of_ne (Real.arccos_le_pi _) hωπ
  have hsin : Real.sin (Real.arccos (sphDot lat1 lon1 lat2 lon2)) ≠ 0 :=
    ne_of_gt (Real.sin_pos_of_pos_of_lt_pi hωpos hωlt)
  have ht_one : tcoef 1 (Real.arccos (sphDot lat1 lon1 lat2 lon2)) = 1 := by
    rw [tcoef, one_mul]
    exact div_self hsin
  have ht_zero : tcoef 0 (Real.arccos (sphDot lat1 lon1 lat2 lon2)) = 0 := by
    rw [tcoef, zero_mul, Real.sin_zero, zero_div]
  constructor
  · rw [interpolate_great_circle, hca, if_neg hω0]
    norm_num [ht_one, ht_zero]
    exact ⟨(latlon_recover lat1 lon1 h1a h1b h1c h1d).1,
      (latlon_recover lat1 lon1 h1a h1b h1c h1d).2⟩
  · rw [interpolate_great_circle, hca, if_neg hω0]
    norm_num [ht_one, ht_zero]
    exact ⟨(latlon_recover lat2 lon2 h2a h2b h2c h2d).1,
      (latlon_recover lat2 lon2 h2a h2b h2c h2d).2⟩

/-- C6 (witness): the amended endpoint theorem applied to the equator points
(0, 0) and (0, 90), whose unit vectors have dot product 0. -/
theorem interpolate_endpoints_witness :
    sphDot 0 0 0 90 < 1 ∧ -1 < sphDot 0 0 0 90 ∧
      interpolate_great_circle 0 0 0 90 0 = ((0 : ℝ), (0 : ℝ)) ∧
      interpolate_great_circle 0 0 0 90 1 = ((0 : ℝ), (90 : ℝ)) := by
  have hr0 : radians 0 = 0 := by
    rw [radians, zero_mul]
  have hr90 : radians 90 = Real.pi / 2 := by
    rw [radians]
    ring
  have hdot : sphDot 0 0 0 90 = 0 := by
    simp only [sphDot, sphx, sphy, sphz, hr0, hr90, Real.cos_zero,
      Real.sin_zero, Real.cos_pi_div_two, Real.sin_pi_div_two]
    ring
  have h := interpolate_endpoints 0 0 0 90 (by norm_num) (by norm_num)
    (by norm_num) (by norm_num) (by norm_num) (by norm_num) (by norm_num)
    (by norm_num) (by rw [hdot]; norm_num) (by rw [hdot]; norm_num)
  exact ⟨by rw [hdot]; norm_num, by rw [hdot]; norm_num, h.1, h.2⟩

/-- Python float modulo on reals, for a positive divisor. -/
noncomputable def pymodR (a b : ℝ) : ℝ := a - b * ⌊a / b⌋

/-- Python int() truncation toward zero on a real. -/
noncomputable def pyintR (x : ℝ) : ℤ := if 0 ≤ x then ⌊x⌋ else -⌊-x⌋

/-- compute_heading of both senders: the initial great-circle bearing
int((degrees(atan2(x, y)) + 360) % 360); note the source passes x as the
first atan2 argument (the y-coordinate slot). -/
noncomputable def compute_heading (lat1 lon1 lat2 lon2 : ℝ) : ℤ :=
  pyintR (pymodR (degrees (atan2
    (Real.sin (radians (lon2 - lon1)) * Real.cos (radians lat2))
    (Real.cos (radians lat1) * Real.sin (radians lat2) -
      Real.sin (radians lat1) * Real.cos (radians lat2) *
        Real.cos (radians (lon2 - lon1)))) + 360) 360)

/-! ## Main-loop tick models

One iteration of the while loop, from the phase scan to the values handed
to send_data_packet.  senderv6 recomputes the heading unconditionally;
senderv7 guards the recomputation behind `if phase != 8`, where `phase` is
the leftover iteration variable of `for t, phase in sorted(...)` — after
the scan it always holds the last table entry's phase code, 7.  The
`fraction >= 1.0` override of current_phase and the position runs after
the heading assignment in both. -/

/-- The scan loop of senderv7.main, tracking both current_phase (first
component) and the for-loop variable `phase` itself (second component). -/
def phaseScanPair {α : Type} [LinearOrderedField α] (prev pv0 : ℕ) (e : α) :
    ℕ × ℕ :=
  PHASE_TIMINGS.foldl
    (fun acc tp => (if (tp.1 : α) ≤ e then tp.2 else acc.1, tp.2)) (prev, pv0)

/-- One iteration of senderv6.main's loop: transmitted phase, transmitted
position, transmitted heading. -/
noncomputable def loop_body_v6 (prev : ℕ) (e : ℝ) (dep dst : ℝ × ℝ) :
    ℕ × (ℝ × ℝ) × ℤ :=
  if 1 ≤ fraction e then
    (8, dst,
      compute_heading (interpolate_great_circle dep.1 dep.2 dst.1 dst.2 (fraction e)).1
        (interpolate_great_circle dep.1 dep.2 dst.1 dst.2 (fraction e)).2 dst.1 dst.2)
  else
    (phaseScan prev e, interpolate_great_circle dep.1 dep.2 dst.1 dst.2 (fraction e),
      compute_heading (interpolate_great_circle dep.1 dep.2 dst.1 dst.2 (fraction e)).1
        (interpolate_great_circle dep.1 dep.2 dst.1 dst.2 (fraction e)).2 dst.1 dst.2)

/-- One iteration of senderv7.main's loop: transmitted phase, the for-loop
variable `phase` after the scan, transmitted position, and the transmitted
heading (which is also the new value of the global oldheading, since the
recompute branch stores it there and the freeze branch leaves it as is). -/
noncomputable def loop_body_v7 (prev pv0 : ℕ) (oldheading : ℤ) (e : ℝ)
    (dep dst : ℝ × ℝ) : ℕ × ℕ × (ℝ × ℝ) × ℤ :=
  (if 1 ≤ fraction e then 8 else (phaseScanPair prev pv0 e).1,
   (phaseScanPair prev pv0 e).2,
   (if 1 ≤ fraction e then dst
    else interpolate_great_circle dep.1 dep.2 dst.1 dst.2 (fraction e)),
   if (phaseScanPair prev pv0 e).2 ≠ 8 then
     compute_heading (interpolate_great_circle dep.1 dep.2 dst.1 dst.2 (fraction e)).1
       (interpolate_great_circle dep.1 dep.2 dst.1 dst.2 (fraction e)).2 dst.1 dst.2
   else oldheading)

/-- C2: on every tick with elapsed strictly beyond TOTAL_FLIGHT_SECONDS =
600, fraction is clamped to 1, the `fraction >= 1.0` branch fires, and both
senders transmit phase 8 with the position set to the destination's
coordinates exactly, overriding the interpolated value. -/
theorem forced_terminal_overrides (prev pv0 : ℕ) (oldheading : ℤ) (e : ℝ)
    (dep dst : ℝ × ℝ) (h : 600 < e) :
    (loop_body_v6 prev e dep dst).1 = 8 ∧
      (loop_body_v6 prev e dep dst).2.1 = dst ∧
      (loop_body_v7 prev pv0 oldheading e dep dst).1 = 8 ∧
      (loop_body_v7 prev pv0 oldheading e dep dst).2.2.1 = dst := by
  have h1 : 1 ≤ fraction e := (one_le_fraction_iff e).mpr h.le
  refine ⟨?_, ?_, ?_, ?_⟩ <;> simp [loop_body_v6, loop_body_v7, if_pos h1]

/-- C2 (witness): the forced-terminal theorem at elapsed 650 on a concrete
route. -/
theorem forced_terminal_overrides_witness :
    (600 : ℝ) < 650 ∧ (loop_body_v6 1 650 (0, 0) (10, 20)).1 = 8 ∧
      (loop_body_v6 1 650 (0, 0) (10, 20)).2.1 = ((10 : ℝ), (20 : ℝ)) ∧
      (loop_body_v7 1 1 0 650 (0, 0) (10, 20)).1 = 8 ∧
      (loop_body_v7 1 1 0 650 (0, 0) (10, 20)).2.2.1 = ((10 : ℝ), (20 : ℝ)) := by
  have h := forced_terminal_overrides 1 1 0 650 (0, 0) (10, 20) (by norm_num)
  exact ⟨by norm_num, h.1, h.2.1, h.2.2.1, h.2.2.2⟩

/-- C3: the heading freeze of senderv7 is dead code — the guard
`if phase != 8` tests the for-loop variable left by the threshold scan,
which is always 7 (the last table entry), never current_phase.  So on every
tick, including those transmitted with phase 8, the heading is freshly
recomputed from the navigation model and the stored oldheading is never
read back (senderv6 has no freeze logic at all and also always recomputes). -/
theorem heading_freeze_never_fires (prev pv0 : ℕ) (oldheading : ℤ) (e : ℝ)
    (dep dst : ℝ × ℝ) :
    (phaseScanPair prev pv0 e).2 = 7 ∧
      (loop_body_v7 prev pv0 oldheading e dep dst).2.2.2 =
        compute_heading (interpolate_great_circle dep.1 dep.2 dst.1 dst.2 (fraction e)).1
          (interpolate_great_circle dep.1 dep.2 dst.1 dst.2 (fraction e)).2
          dst.1 dst.2 := by
  have h7 : (phaseScanPair prev pv0 e).2 = 7 := rfl
  refine ⟨h7, ?_⟩
  simp only [loop_body_v7, h7]
  norm_num

/-- tailwind computation of send_data_packet in both senders:
head_wind = 39, wind_direction = heading + 10,
wind_angle_diff = heading - wind_direction,
tailwind = int(head_wind * cos(radians(wind_angle_diff))). -/
noncomputable def tailwind_of (heading : ℤ) : ℤ :=
  pyintR (39 * Real.cos (radians ((heading : ℝ) - ((heading : ℝ) + 10))))

/-- C10: the tailwind field is independent of the heading — the angle
difference heading - wind_direction is the constant -10 degrees, and
int(39 * cos(radians(-10))) = 38, so every packet carries tailwind 38. -/
theorem tailwind_always_38 : ∀ heading : ℤ, tailwind_of heading = 38 := by
  intro heading
  have harg : (heading : ℝ) - ((heading : ℝ) + 10) = -10 := by ring
  have hrad : radians (-10 : ℝ) = -(Real.pi / 18) := by
    rw [radians]
    ring
  rw [tailwind_of, harg, hrad, Real.cos_neg]
  have hπ1 : Real.pi < 3.15 := Real.pi_lt_d2
  have hπ0 : 0 < Real.pi := Real.pi_pos
  have hb : 1 - (Real.pi / 18) ^ 2 / 2 ≤ Real.cos (Real.pi / 18) :=
    Real.one_sub_sq_div_two_le_cos
  have hlow : (38 : ℝ) ≤ 39 * Real.cos (Real.pi / 18) := by
    nlinarith
  have hc : Real.cos (Real.pi / 18) < Real.cos 0 :=
    Real.cos_lt_cos_of_nonneg_of_le_pi (le_refl 0) (by linarith) (by positivity)
  rw [Real.cos_zero] at hc
  have hhigh : 39 * Real.cos (Real.pi / 18) < 39 := by nlinarith
  rw [pyintR, if_pos (by linarith)]
  rw [Int.floor_eq_iff]
  constructor
  · push_cast
    linarith
  · push_cast
    linarith

end FlightMap
